import Mathlib

/-!
Verification of the EJS template compiler (src/lib/ejs.js) against its
natural-language specification.

The development shallowly embeds the compiler pipeline over `List Char`:

* the literal-text escaping passes of `Template.prototype.generateSource`
  (source lines 512-522),
* the tag matcher built from `_REGEX_STRING` (line 56).  The raw source of
  that single-quoted JavaScript string doubles every backslash, so its
  value is the regular expression
  `(([(\\r)(\\\\n)\s]*)(<%(?!%)[=\-_#]?)\s*(.*?)\s*([\-_]?%>)([(\\r)(\\\\n)\s]*))`:
  the before/after capture classes are the characters `(`, `)`, `\`, `r`,
  `n` together with all `\s` whitespace, the optional opener character
  class is exactly `=`, `-`, `_`, `#`, and the gaps around the content
  group are genuine `\s*` whitespace skips.  The embedding reproduces
  exactly this (the delimiter is fixed to the default `%`),
* the per-match rewrite callback (lines 525-601) and the literal-delimiter
  pass `<%%|%%>` (lines 57, 602-604),
* execution of the assembled program.  Dynamic JavaScript evaluation of the
  embedded fragments is abstracted by an `Oracle` giving the value of an
  expression, the output effect of a scriptlet statement and of an inlined
  include; everything else (which characters of the template reach the
  output, and how) is computed concretely,
* `rethrow` (lines 143-164), `resolveInclude`/`getIncludePath` (98-128)
  over a model of Node's posix `path`, the `pathStack` discipline of
  `includeFile`/`includeSource`/the runtime `include` closure (417-431,
  611-646), the cache logic of `exports.compile` (227-240) and the
  option-copying of `exports.render`/`cpOptsInData` (58-62, 178-184,
  256-266).
-/

/-! ## JavaScript whitespace (the real `\s` of regex literals, ASCII part) -/

/-- Characters matched by `\s` in a JavaScript regex literal (ASCII part;
the templates under study contain no exotic Unicode whitespace). -/
def isJsWs (c : Char) : Bool :=
  c == ' ' || c == '\t' || c == '\n' || c == '\r' || c == '\x0b' || c == '\x0c'

/-! ## Escaping of literal text, generateSource lines 516-522

`template.replace(/'|\\/g, '\\$&').replace(/\n/g, '\\n')` and, when
`rmWhitespace` is off, `.replace(/\r/g, '\\r')`.  Each global replace is a
per-character expansion. -/

/-- A single escaping pass: every character satisfying `cond` becomes the
backslash followed by `f` of it. -/
def escPass (cond : Char → Bool) (f : Char → Char) : List Char → List Char
  | [] => []
  | c :: rest =>
    if cond c then '\\' :: f c :: escPass cond f rest else c :: escPass cond f rest

/-- `.replace(/'|\\/g, '\\$&')`: prefix every quote and backslash with a
backslash. -/
def escQB : List Char → List Char :=
  escPass (fun c => c == '\'' || c == '\\') (fun c => c)

/-- `.replace(/\n/g, '\\n')`: newline to the two characters `\` `n`. -/
def escNL : List Char → List Char :=
  escPass (fun c => c == '\n') (fun _ => 'n')

/-- `.replace(/\r/g, '\\r')`: carriage return to the two characters `\` `r`. -/
def escCR : List Char → List Char :=
  escPass (fun c => c == '\r') (fun _ => 'r')

/-- Split a character list at newlines (Node-style `split('\n')`). -/
def splitNl : List Char → List (List Char)
  | [] => [[]]
  | c :: rest =>
    let r := splitNl rest
    if c == '\n' then [] :: r
    else match r with
      | [] => [[c]]
      | l :: ls => (c :: l) :: ls

/-- Join lines with newlines (inverse of `splitNl`). -/
def joinNl : List (List Char) → List Char
  | [] => []
  | [l] => l
  | l :: ls => l ++ '\n' :: joinNl ls

/-- `/^\s+|\s+$/gm` applied to one line: strip leading and trailing
whitespace. -/
def trimLine (l : List Char) : List Char :=
  ((l.dropWhile isJsWs).reverse.dropWhile isJsWs).reverse

/-- The `rmWhitespace` pre-pass, generateSource line 513:
`template.replace(/\r/g, '').replace(/^\s+|\s+$/gm, '')`. -/
def rmwPass (t : List Char) : List Char :=
  joinNl ((splitNl (t.filter (fun c => c != '\r'))).map trimLine)

/-- The literal-text escaping of generateSource lines 512-522, as a function
of the `rmWhitespace` option (the CR pass runs only when it is off). -/
def jsEscape (rmW : Bool) (t : List Char) : List Char :=
  if rmW then escNL (escQB (rmwPass t)) else escCR (escNL (escQB t))

/-! ## Unescaping: executing a single-quoted string literal

The assembled program embeds the escaped template text inside a
single-quoted JavaScript string literal; running the program turns the
escape pairs back into characters.  `\n`, `\r`, `\t`, `\b`, `\f`, `\v` are
the named escapes; for any other character `c`, `\c` denotes `c`. -/

/-- The character denoted by `\c` in a JavaScript string literal. -/
def unescChar (c : Char) : Char :=
  if c == 'n' then '\n'
  else if c == 'r' then '\r'
  else if c == 't' then '\t'
  else if c == 'b' then '\x08'
  else if c == 'f' then '\x0c'
  else if c == 'v' then '\x0b'
  else c

/-- Evaluate the body of a single-quoted JavaScript string literal. -/
def jsUnesc : List Char → List Char
  | [] => []
  | c :: rest =>
    if c == '\\' then
      match rest with
      | [] => [c]
      | d :: rest' => unescChar d :: jsUnesc rest'
    else c :: jsUnesc rest

/-! ## The literal-delimiter pass, lines 57 and 602-604

`/<%%|%%>/g` with `match[0] === '<' ? match.substr(0, match.length - 1)
: match.substr(1)`: `<%%` becomes `<%` and `%%>` becomes `%>`. -/

/-- Global replace of `<%%` by `<%` and `%%>` by `%>` (leftmost first,
`<%%` tried before `%%>` as in the alternation). -/
def litRepl : List Char → List Char
  | [] => []
  | [c] => [c]
  | [c1, c2] => [c1, c2]
  | c1 :: c2 :: c3 :: rest =>
    if c1 == '<' && c2 == '%' && c3 == '%' then '<' :: '%' :: litRepl rest
    else if c1 == '%' && c2 == '%' && c3 == '>' then '%' :: '>' :: litRepl rest
    else c1 :: litRepl (c2 :: c3 :: rest)

/-- Output produced by a literal span of the assembled program: the
literal-delimiter pass followed by execution of the string literal. -/
def litOut (cs : List Char) : List Char :=
  jsUnesc (litRepl cs)


/-! ## The tag matcher

`_REGEX_STRING` (line 56) evaluates, as a JavaScript string, to the regex
`(([(\\r)(\\\\n)\s]*)(<%(?!%)[=\-_#]?)\s*(.*?)\s*([\-_]?%>)([(\\r)(\\\\n)\s]*))`.
With `compileDebug` the alternative `|\\n` (matching a backslash then `n`)
is appended (lines 55, 359).  The capture classes are modelled by `isCLS`;
the optional opener character class `[=\-_#]` is `{=, -, _, #}` (`isPCLS`).
All `.` positions are modelled as "any character": the matcher only ever
runs on escaped template text, which contains no line terminators. -/

/-- The "before"/"after" capture class `[(\\r)(\\\\n)\s]`:
`(`, `)`, a literal backslash, the letters `r` and `n`, and every `\s`
whitespace character. -/
def isCLS (c : Char) : Bool :=
  c == '(' || c == ')' || c == '\\' || c == 'r' || c == 'n' || isJsWs c

/-- The optional opener character class `[=\-_#]`: exactly `=`, `-` (an
escaped hyphen), `_`, `#`. -/
def isPCLS (c : Char) : Bool :=
  c == '=' || c == '-' || c == '_' || c == '#'

/-- One tag occurrence as decomposed by the matcher: the captured groups
(before-run, opener, content, closer, after-run).  The uncaptured `\s*`
whitespace runs around the content are part of the match but of no
group. -/
structure TagMatch where
  before : List Char
  opener : List Char
  content : List Char
  closer : List Char
  after : List Char
  deriving Repr, DecidableEq

/-- Match `<%(?!%)[=\-_#]?` at the head; returns the opener and the rest. -/
def matchOpen : List Char → Option (List Char × List Char)
  | c1 :: c2 :: rest =>
    if c1 == '<' && c2 == '%' then
      match rest with
      | [] => some (['<', '%'], [])
      | c :: rest' =>
        if c == '%' then none
        else if isPCLS c then some (['<', '%', c], rest')
        else some (['<', '%'], rest)
    else none
  | _ => none

/-- Match `[\-_]?%>` at the head; returns the closer group and the rest. -/
def closerMatch : List Char → Option (List Char × List Char)
  | '-' :: '%' :: '>' :: r => some (['-', '%', '>'], r)
  | '_' :: '%' :: '>' :: r => some (['_', '%', '>'], r)
  | '%' :: '>' :: r => some (['%', '>'], r)
  | _ => none

/-- Match `\s*([\-_]?%>)` at the head (the tail the lazy content group
waits for). -/
def tailMatch (cs : List Char) : Option (List Char × List Char) :=
  closerMatch (cs.dropWhile isJsWs)

/-- Lazy search for the closer: the content group grows one character at a
time until `\s*[\-_]?%>` matches.  Returns (content, closer, rest). -/
def findCloser : List Char → Option (List Char × List Char × List Char)
  | [] => none
  | c :: rest =>
    match tailMatch (c :: rest) with
    | some (cl, r) => some ([], cl, r)
    | none =>
      match findCloser rest with
      | some (co, cl, r) => some (c :: co, cl, r)
      | none => none

/-- Attempt the tag alternative of the matcher at the head of `cs`:
greedy before-run, opener, greedy `\s*` skip, lazy content, closer,
greedy after-run.  Returns the match and the remaining text. -/
def matchTagFrom (cs : List Char) : Option (TagMatch × List Char) :=
  let bef := cs.takeWhile isCLS
  let rest1 := cs.dropWhile isCLS
  match matchOpen rest1 with
  | none => none
  | some (op, rest2) =>
    match findCloser (rest2.dropWhile isJsWs) with
    | none => none
    | some (co, cl, rest4) =>
      some ({ before := bef, opener := op, content := co, closer := cl,
              after := rest4.takeWhile isCLS }, rest4.dropWhile isCLS)

/-- Match the `compileDebug` alternative `\\n` (a backslash then `n`). -/
def matchEscNl : List Char → Option (List Char)
  | c1 :: c2 :: r => if c1 == '\\' && c2 == 'n' then some r else none
  | _ => none

/-- One unit of the global-replace decomposition of the escaped template:
a plain character, a standalone escaped newline matched by the `\\n`
alternative (returned unchanged by the callback), or a tag match. -/
inductive Piece where
  | lit (c : Char)
  | escNl
  | tag (m : TagMatch)
  deriving Repr, DecidableEq

/-- The left-to-right walk of the global replace: at each position try the
tag alternative, then (with `compileDebug`) the `\\n` alternative, else the
character is literal text.  `fuel` bounds the recursion; every step consumes
at least one character, so `cs.length` fuel suffices. -/
def scanF (dbg : Bool) : Nat → List Char → List Piece
  | 0, cs => cs.map Piece.lit
  | fuel + 1, cs =>
    match matchTagFrom cs with
    | some (m, rest) => Piece.tag m :: scanF dbg fuel rest
    | none =>
      match (if dbg then matchEscNl cs else none) with
      | some r => Piece.escNl :: scanF dbg fuel r
      | none =>
        match cs with
        | [] => []
        | c :: rest => Piece.lit c :: scanF dbg fuel rest

/-- Decompose the escaped template text into pieces. -/
def scan (dbg : Bool) (cs : List Char) : List Piece :=
  scanF dbg cs.length cs

/-! ## The rewrite callback, generateSource lines 525-601

Only the output-relevant behaviour is modelled.  The `compileDebug` line
bookkeeping (lines 528-546) emits `__line = n` assignments, which produce
no output; it is therefore not part of the render model. -/

/-- Tag openers and closers for the default delimiter `%`
(parseOptions lines 437-448). -/
def escapedOpenL : List Char := ['<', '%', '=']

/-- `delimiter.raw` (`<%-`). -/
def rawOpenL : List Char := ['<', '%', '-']

/-- `delimiter.comment`. -/
def commentOpenL : List Char := ['<', '%', '#']

/-- `delimiter.scriptlet`. -/
def scriptletOpenL : List Char := ['<', '%']

/-- `delimiter.whitespaceSlurpingStart`. -/
def slurpOpenL : List Char := ['<', '%', '_']

/-- `delimiter.whitespaceSlurpingEnd`. -/
def slurpCloseL : List Char := ['_', '%', '>']

/-- `delimiter.rmNewLine`. -/
def rmNlCloseL : List Char := ['-', '%', '>']

/-- Line 549: `before.replace(/[\s\t]*$/, '')` (strip a trailing whitespace
run; `\s` here is a real regex-literal escape). -/
def rtrimJsWs (l : List Char) : List Char :=
  (l.reverse.dropWhile isJsWs).reverse

/-- Line 552: `after.replace(/^[\s\t]*(\\n)?/, '')` (strip a leading
whitespace run, then at most one escaped newline `\` `n`). -/
def slurpAfter (l : List Char) : List Char :=
  match l.dropWhile isJsWs with
  | '\\' :: 'n' :: r => r
  | a => a

/-- Line 554: `after.replace(/(\\r)?\\n/, '')` (remove the first occurrence
of an optional escaped CR followed by an escaped newline). -/
def rmNlAfter : List Char → List Char
  | '\\' :: 'r' :: '\\' :: 'n' :: r => r
  | '\\' :: 'n' :: r => r
  | c :: r => c :: rmNlAfter r
  | [] => []

/-- Line 561, first pass: `content.replace(/\\n/g, '\n')`. -/
def unescContentN : List Char → List Char
  | '\\' :: 'n' :: r => '\n' :: unescContentN r
  | c :: r => c :: unescContentN r
  | [] => []

/-- Line 561, second pass: `.replace(/\\'/g, "'")`. -/
def unescContentQ : List Char → List Char
  | '\\' :: '\'' :: r => '\'' :: unescContentQ r
  | c :: r => c :: unescContentQ r
  | [] => []

/-- `_INCLUDE_DIRECTIVE_REGEXP = /^\s*include\s+(\S+)/` (line 64): an
optional whitespace run, the word `include`, at least one whitespace, then
the captured maximal non-whitespace run. -/
def includeDirMatch (co : List Char) : Option (List Char) :=
  let a := co.dropWhile isJsWs
  if a.take 7 == "include".toList then
    let b := a.drop 7
    let ws := b.takeWhile isJsWs
    if ws.isEmpty then none
    else
      let p := (b.dropWhile isJsWs).takeWhile (fun c => !isJsWs c)
      if p.isEmpty then none else some p
  else none

/-- Whether `cs` contains `null` as a substring. -/
def hasNullSub : List Char → Bool
  | 'n' :: 'u' :: 'l' :: 'l' :: _ => true
  | _ :: rest => hasNullSub rest
  | [] => false

/-- Line 580: `/^\s*(undefined)|(null)\s*/.test(content)`.  By alternation
precedence this is `(^\s*(undefined)) | ((null)\s*)`: either the content
begins with optional whitespace followed by `undefined`, or it contains
`null` anywhere. -/
def undefNullTest (co : List Char) : Bool :=
  (co.dropWhile isJsWs).take 9 == "undefined".toList || hasNullSub co

/-- Lines 580-582: rewrite the content to the empty-string literal when
`undefNullTest` fires. -/
def normalizeContent (co : List Char) : List Char :=
  if undefNullTest co then ['\'', '\''] else co

/-- Line 589: `content.replace(/;\s*$/, '')` (raw-output case: strip one
trailing statement terminator and the whitespace after it). -/
def rstripSemi (co : List Char) : List Char :=
  match co.reverse.dropWhile isJsWs with
  | ';' :: rest => rest.reverse
  | _ => co

/-- Line 570: the inlined include body is wrapped as an immediately-invoked
expression, `(function () ` + a left brace + the included source + a right
brace + `).call(this)`. -/
def iifeWrap (src : List Char) : List Char :=
  "(function () \x7b".toList ++ src ++ "\x7d).call(this)".toList

/-- The host-evaluation oracle: values and output effects of the embedded
JavaScript fragments, the escape function (the Program Loader seam of the
specification), and the generated source text of an inlined include
(`includeSource`, lines 641-646).  The compiler itself never interprets
fragments. -/
structure Oracle where
  exprVal : List Char → List Char
  stmtOut : List Char → List Char
  esc : List Char → List Char
  includeSrc : List Char → List Char

/-- The compile options the render pipeline depends on: `compileDebug`
(adds the `|\\n` alternative) and `rmWhitespace` (pre-pass and the
always-slurp of line 551). -/
structure Cfg where
  dbg : Bool
  rmW : Bool
  deriving Repr, DecidableEq

/-- Output contribution of one tag match: the callback of lines 548-601.
Slurp handling (548-555), the comment early return (557-559), content
unescaping (561), include detection (563-579, the inlined body abstracted
by the oracle), undefined/null normalization (580-582), then the emission
switch (585-601).  Captured before/after runs live inside the program's
string literal, so they contribute their `litOut`. -/
def tagOut (cfg : Cfg) (o : Oracle) (m : TagMatch) : List Char :=
  let bef := if m.opener == slurpOpenL then rtrimJsWs m.before else m.before
  let aft :=
    if m.closer == slurpCloseL || cfg.rmW then slurpAfter m.after
    else if m.closer == rmNlCloseL then rmNlAfter m.after
    else m.after
  if m.opener == commentOpenL then []
  else
    let co := unescContentQ (unescContentN m.content)
    -- lines 563-572: an include directive replaces the content with the
    -- immediately-invoked wrapper around the included source (abstracted by
    -- the `includeSrc` oracle); the undefined/null test of line 580 then
    -- runs on the resulting content text either way
    let inc := includeDirMatch co
    let co2 := normalizeContent (match inc with
      | some p => iifeWrap (o.includeSrc p)
      | none => co)
    if m.opener == escapedOpenL then litOut bef ++ o.esc (o.exprVal co2) ++ litOut aft
    else if m.opener == rawOpenL then litOut bef ++ o.exprVal (rstripSemi co2) ++ litOut aft
    else if m.opener == scriptletOpenL || m.opener == slurpOpenL then
      -- an included scriptlet becomes `;__output += <content>` (line 594):
      -- it appends the content expression's value; a plain scriptlet runs
      -- its statements for their output effect
      litOut bef ++ (if inc.isSome then o.exprVal co2 else o.stmtOut co2) ++ litOut aft
    else
      -- default switch case: `before + content + after` is spliced into
      -- the open string literal
      litOut bef ++ litOut co2 ++ litOut aft

/-- Fold the pieces into the rendered output, accumulating literal source
characters (escaped-newline matches are returned unchanged by the callback,
so they stay literal text) and flushing them through `litOut` at each tag. -/
def renderGo (cfg : Cfg) (o : Oracle) : List Char → List Piece → List Char
  | acc, [] => litOut acc
  | acc, Piece.lit c :: rest => renderGo cfg o (acc ++ [c]) rest
  | acc, Piece.escNl :: rest => renderGo cfg o (acc ++ ['\\', 'n']) rest
  | acc, Piece.tag m :: rest => litOut acc ++ tagOut cfg o m ++ renderGo cfg o [] rest

/-- Render a template: escape the text (lines 512-522), decompose it with
the matcher, execute the assembled program (prologue and epilogue produce no
output; `__line` bookkeeping produces no output). -/
def ejsRender (cfg : Cfg) (o : Oracle) (t : List Char) : List Char :=
  renderGo cfg o [] (scan cfg.dbg (jsEscape cfg.rmW t))

/-- String-level wrapper of `ejsRender`. -/
def ejsRenderS (cfg : Cfg) (o : Oracle) (s : String) : String :=
  String.mk (ejsRender cfg o s.toList)

/-- The default compile options: `compileDebug` on, `rmWhitespace` off
(Template constructor lines 338, 345). -/
def defaultCfg : Cfg := ⟨true, false⟩

/-- An oracle for pure, output-free fragments: every embedded expression
evaluates to the empty string and every scriptlet writes nothing. -/
def pureOracle : Oracle := ⟨fun _ => [], fun _ => [], fun _ => [], fun _ => []⟩

/-! ## Node posix path model (the `path` collaborator of lines 98-128)

`path.resolve` makes paths absolute against the current working directory,
which the model takes as an explicit parameter (assumed absolute). -/

/-- Split a path into `/`-separated segments. -/
def splitSlash : List Char → List (List Char)
  | [] => [[]]
  | c :: rest =>
    let r := splitSlash rest
    if c == '/' then [] :: r
    else match r with
      | [] => [[c]]
      | l :: ls => (c :: l) :: ls

/-- Node's `normalizeString`: drop empty and `.` segments, resolve `..`
against the previous segment; `allowUp` keeps leading `..`s (relative
paths). -/
def normSegs (allowUp : Bool) (segs : List (List Char)) : List (List Char) :=
  segs.foldl
    (fun acc seg =>
      if seg.isEmpty || seg == ['.'] then acc
      else if seg == ['.', '.'] then
        match acc.getLast? with
        | some last => if last == ['.', '.'] then acc ++ [seg] else acc.dropLast
        | none => if allowUp then [seg] else acc
      else acc ++ [seg])
    []

/-- Join segments with `/`. -/
def joinSlash : List (List Char) → List Char
  | [] => []
  | [l] => l
  | l :: ls => l ++ '/' :: joinSlash ls

/-- Does the path start with `/`? -/
def startsSlash (p : String) : Bool :=
  match p.toList with
  | '/' :: _ => true
  | _ => false

/-- Node `path.posix.resolve(a, b)` with explicit working directory `cwd`
(assumed absolute): paths are joined right to left until one is absolute,
`cwd` being the final fallback, then normalized. -/
def pathResolve (cwd a b : String) : String :=
  let combined : List Char :=
    if startsSlash b then b.toList
    else if a != "" then
      (if startsSlash a then a.toList ++ '/' :: b.toList
       else cwd.toList ++ '/' :: a.toList ++ '/' :: b.toList)
    else cwd.toList ++ '/' :: b.toList
  let absolute := match combined with
    | '/' :: _ => true
    | _ => false
  let segs := normSegs (!absolute) (splitSlash combined)
  if absolute then String.mk ('/' :: joinSlash segs)
  else if segs.isEmpty then "." else String.mk (joinSlash segs)

/-- Node `path.posix.dirname`. -/
def pathDirname (p : String) : String :=
  match p.toList with
  | [] => "."
  | c0 :: rest =>
    -- scan from the right: skip trailing slashes, skip the basename, the
    -- next slash (at index ≥ 1) ends the directory part
    let r1 := rest.reverse.dropWhile (fun c => c == '/')
    let r2 := r1.dropWhile (fun c => c != '/')
    match r2 with
    | [] => if c0 == '/' then "/" else "."
    | _ :: r3 =>
      let e := 1 + r3.length
      if c0 == '/' && e == 1 then "//"
      else String.mk ((c0 :: rest).take e)

/-- Node `path.posix.extname`: the extension of the basename (trailing
slashes ignored); empty when the basename has no dot, when its only dot is
the leading character, or when the basename is `..`. -/
def pathExtname (p : String) : String :=
  let bRev := (p.toList.reverse.dropWhile (fun c => c == '/')).takeWhile (fun c => c != '/')
  if bRev.reverse == ['.', '.'] then ""
  else
    let pre := bRev.takeWhile (fun c => c != '.')
    if pre.length == bRev.length then ""
    else if bRev.length == pre.length + 1 then ""
    else String.mk ('.' :: pre.reverse)

/-! ## Include path resolution, lines 98-128 -/

/-- `exports.resolveInclude` (lines 98-108): resolve `name` against
`filename` (or its directory when `isDir` is false) and append the default
`.ejs` extension when `name` has none. -/
def resolveInclude (cwd : String) (name filename : String) (isDir : Bool) : String :=
  let includePath := pathResolve cwd (if isDir then filename else pathDirname filename) name
  if pathExtname name == "" then includePath ++ ".ejs" else includePath

/-- `path.replace(/^\/*/, '')`: strip every leading slash. -/
def stripLeadSlashes (p : String) : String :=
  String.mk (p.toList.dropWhile (fun c => c == '/'))

/-- JavaScript truthiness of an optional string (`undefined` and `''` are
falsy). -/
def strTruthy : Option String → Bool
  | none => false
  | some s => s != ""

/-- `getIncludePath` (lines 117-128).  An absolute include resolves against
`root || '/'`; a relative include requires a truthy enclosing `filename`
and resolves against its directory; otherwise the configuration error is
thrown. -/
def getIncludePath (cwd : String) (p : String) (filename : Option String)
    (root : Option String) : Except String String :=
  if startsSlash p then
    let r := match root with
      | some s => if s == "" then "/" else s
      | none => "/"
    Except.ok (resolveInclude cwd (stripLeadSlashes p) r true)
  else
    if strTruthy filename then
      Except.ok (resolveInclude cwd p (filename.getD "") false)
    else
      Except.error "`include` use relative path requires the 'filename' option."

/-! ## The line-mapped error reporter, `rethrow` (lines 143-164) -/

/-- The error object as `rethrow` rewrites it: a structured `path` field and
a `message`. -/
structure EjsError where
  path : Option String
  message : String
  deriving Repr, DecidableEq

/-- The context lines of `rethrow` over the already-split source lines:
`start = max(lineno - 3, 0)` (natural subtraction), `end = min(lines.length,
lineno + 3)`, `lines.slice(start, end)` rendered with the 1-based absolute
line number and a ` >> ` marker on `lineno` (lines 144-154). -/
def rethrowLines (lines : List String) (lineno : Nat) : List String :=
  let start := lineno - 3
  let stop := min lines.length (lineno + 3)
  ((lines.drop start).take (stop - start)).mapIdx
    (fun i line =>
      let curr := i + start + 1
      (if curr == lineno then " >> " else "    ") ++ toString curr ++ "| " ++ line)

/-- `str.split('\n')` then the context window, joined with newlines. -/
def rethrowContext (str : String) (lineno : Nat) : String :=
  String.intercalate "\n" (rethrowLines ((splitNl str.toList).map String.mk) lineno)

/-- `rethrow` (lines 143-164).  The function always ends in `throw err`;
it is modelled as returning the error that is thrown: `err.path` is set to
the filename and the message is rewritten to
`(filename || 'ejs') + ':' + lineno + '\n' + context + '\n\n' + message`. -/
def rethrow (err : EjsError) (str : String) (filename : Option String)
    (lineno : Nat) : EjsError :=
  { path := filename,
    message :=
      (match filename with
        | some f => if f == "" then "ejs" else f
        | none => "ejs") ++ ":" ++ toString lineno ++ "\n" ++
      rethrowContext str lineno ++ "\n\n" ++ err.message }

/-! ## The PathStack discipline (lines 417-431, 611-646)

`includeFile` computes the resolved filename from the top of the stack
(line 614-615; `getIncludePath` may throw before anything is pushed), pushes
it (line 621), then may fail while fetching the template (line 628) or
loading the generated program (line 630); no handler pops on these paths.
`includeSource` (641-646) and the runtime `include` closure (419-427) pop
only after their call completes normally.  Failure points are modelled by
explicit flags; the result is the success flag paired with the stack as the
(mutable, exception-surviving) object leaves it. -/

/-- Stack effect of `Template.prototype.includeFile`: `resolved = none`
models `getIncludePath` throwing (before the push); `fetchOk` and
`compileOk` model `readFile`/page lookup (line 628) and `sourceToFunc`
(line 630). -/
def includeFileStack (stack : List String) (resolved : Option String)
    (fetchOk compileOk : Bool) : Bool × List String :=
  match resolved with
  | none => (false, stack)
  | some fname =>
    let st1 := stack ++ [fname]
    if !fetchOk then (false, st1)
    else if !compileOk then (false, st1)
    else (true, st1)

/-- Stack effect of the runtime `include` closure (compile lines 419-427):
`includeFile(path)` is called, the compiled function is executed (`execOk`),
and only then is `pathStack.pop()` (line 425) reached. -/
def runtimeIncludeStack (stack : List String) (resolved : Option String)
    (fetchOk compileOk execOk : Bool) : Bool × List String :=
  match includeFileStack stack resolved fetchOk compileOk with
  | (false, st1) => (false, st1)
  | (true, st1) => if !execOk then (false, st1) else (true, st1.dropLast)

/-- Stack effect of `Template.prototype.includeSource` (lines 641-646):
`includeFile` runs, its result is stringified (infallible), then
`pathStack.pop()` (line 644). -/
def includeSourceStack (stack : List String) (resolved : Option String)
    (fetchOk compileOk : Bool) : Bool × List String :=
  match includeFileStack stack resolved fetchOk compileOk with
  | (false, st1) => (false, st1)
  | (true, st1) => (true, st1.dropLast)

/-! ## The compile cache, `exports.compile` (lines 227-240) -/

/-- The options `exports.compile` consults for caching. -/
structure CompileOpts where
  usePages : Bool
  cache : Bool
  filename : Option String
  deriving Repr, DecidableEq

/-- Process-wide state: the filename cache (`exports.cache`, keyed by the
raw `opts.filename`, which may be `undefined`) and a counter of template
compilations (`new Template(template, opts).compile()` executions).  A
compiled function is identified by the counter value that created it. -/
structure CompileState where
  cacheMap : List (Option String × Nat)
  counter : Nat
  deriving Repr, DecidableEq

/-- `exports.cache.get`. -/
def cacheGet (m : List (Option String × Nat)) (k : Option String) : Option Nat :=
  match m.find? (fun kv => kv.1 == k) with
  | some kv => some kv.2
  | none => none

/-- `exports.cache.set` (last write wins). -/
def cacheSet (m : List (Option String × Nat)) (k : Option String) (v : Nat) :
    List (Option String × Nat) :=
  (k, v) :: m.filter (fun kv => kv.1 != k)

/-- `exports.compile` (lines 227-240), caching behaviour: when `usePages`
is unset and `cache` and `filename` are truthy, a cache hit is returned
without compiling; otherwise the template is compiled (counter bump) and,
whenever `cache` is truthy, stored under `opts.filename`. -/
def ejsCompile (opts : CompileOpts) (st : CompileState) : Nat × CompileState :=
  match (if !opts.usePages && opts.cache && strTruthy opts.filename
         then cacheGet st.cacheMap opts.filename else none) with
  | some fn => (fn, st)
  | none =>
    let fn := st.counter + 1
    let st1 : CompileState := { st with counter := st.counter + 1 }
    let st2 : CompileState :=
      if opts.cache then { st1 with cacheMap := cacheSet st1.cacheMap opts.filename fn }
      else st1
    (fn, st2)

/-! ## Option copying in `exports.render` (lines 58-62, 178-184, 256-266) -/

/-- `_OPTS` (lines 58-62): the recognized option names. -/
def OPTS : List String :=
  ["cache", "filename", "delimiter", "scope", "context",
   "debug", "compileDebug", "client", "_with", "root", "rmWhitespace",
   "strict", "localsName", "usePages", "pages"]

/-- `cpOptsInData` (lines 178-184): for each recognized name, copy the data
field into the options object when it is not `undefined`.  Objects are
modelled as maps from field name to an optional value (`none` is
`undefined`); the value type is abstract. -/
def cpOptsInData {α : Type} (data : String → Option α) (opts : String → Option α) :
    String → Option α :=
  OPTS.foldl
    (fun acc p =>
      match data p with
      | some v => fun q => if q = p then some v else acc q
      | none => acc)
    opts

/-- The options object `exports.render` passes to `exports.compile`
(lines 256-266): `opts = o || {}`, and only when called with exactly two
arguments (`argCount = 2`) are the optiony data fields copied in. -/
def renderOptsOf {α : Type} (argCount : Nat) (d : Option (String → Option α))
    (o : Option (String → Option α)) : String → Option α :=
  let data := d.getD (fun _ => none)
  let opts := o.getD (fun _ => none)
  if argCount = 2 then cpOptsInData data opts else opts

/-! ## Substring predicates for the literal-only identity -/

/-- Does the list begin with `%`? -/
def headIsPct : List Char → Bool
  | [] => false
  | c :: _ => c == '%'

/-- Does the list begin with `>`? -/
def headIsGt : List Char → Bool
  | [] => false
  | c :: _ => c == '>'

/-- Does the list begin with `%>`? -/
def headIsPctGt : List Char → Bool
  | [] => false
  | c :: rest => c == '%' && headIsGt rest

/-- Does the list contain the tag-opening sequence `<%`? -/
def hasLtPct : List Char → Bool
  | [] => false
  | c :: rest => (c == '<' && headIsPct rest) || hasLtPct rest

/-- Does the list contain the literal-delimiter escape `%%>`? -/
def hasPPG : List Char → Bool
  | [] => false
  | c :: rest => (c == '%' && headIsPctGt rest) || hasPPG rest

/-! ## Claims -/

/-- A 10-line template source, split into its lines. -/
def tenLines : List String :=
  ["l1", "l2", "l3", "l4", "l5", "l6", "l7", "l8", "l9", "l10"]

/-- Claim C1 (counterexample): for a failing line 5 of a 10-line template,
the context window of `rethrow` spans lines 3 through 8 — not lines 2
through 8 as claimed — so the reporter shows at most 2 lines before the
failing line, not 3. -/
theorem C1_counterexample :
    rethrowLines tenLines 5 =
      ["    3| l3", "    4| l4", " >> 5| l5", "    6| l6", "    7| l7", "    8| l8"] ∧
    rethrowLines tenLines 5 ≠
      ["    2| l2", "    3| l3", "    4| l4", " >> 5| l5",
       "    6| l6", "    7| l7", "    8| l8"] := by
  constructor
  · decide
  · decide

/-- Claim C1 (amended): the line-mapped error reporter builds a window of up
to 2 lines before and up to 3 lines after the failing line, clamped to the
source bounds (its length is `min n (L + 3) - (L - 3)` over `n` lines); for
a runtime error on line 5 of a 10-line template the window spans lines 3
through 8 with line 5 marked and every line prefixed with its absolute
number; the reported error's `path` equals the supplied filename, and the
rewritten error is always the one re-raised. -/
theorem C1_rethrowWindow :
    (rethrowLines tenLines 5 =
      ["    3| l3", "    4| l4", " >> 5| l5", "    6| l6", "    7| l7", "    8| l8"]) ∧
    (∀ lines L, (rethrowLines lines L).length = min lines.length (L + 3) - (L - 3)) ∧
    (∀ err str fn L, (rethrow err str fn L).path = fn) ∧
    (rethrow ⟨none, "boom"⟩ "l1\nl2\nl3\nl4\nl5\nl6\nl7\nl8\nl9\nl10"
        (some "views/a.ejs") 5).message =
      "views/a.ejs:5\n    3| l3\n    4| l4\n >> 5| l5\n    6| l6\n    7| l7\n    8| l8\n\nboom" := by
  refine ⟨by decide, ?_, fun _ _ _ _ => rfl, by decide⟩
  intro lines L
  simp [rethrowLines]
  omega

/-- Claim C2 (counterexample): a runtime include whose fetch fails after the
resolved filename was pushed leaves that entry on the PathStack — the stack
does not equal its value from before the include. -/
theorem C2_counterexample :
    runtimeIncludeStack ["a.ejs"] (some "b.ejs") false true true =
      (false, ["a.ejs", "b.ejs"]) ∧
    ["a.ejs", "b.ejs"] ≠ (["a.ejs"] : List String) := by
  constructor
  · decide
  · decide

/-- Claim C2 (amended): the PathStack entry pushed for an include is popped
only on the success path of `includeSource` and of the runtime `include`
call; when `getIncludePath` throws, nothing was pushed and the stack is
unchanged, but when the fetch, the compilation, or the execution of the
include fails after the push, the pushed entry remains on the stack. -/
theorem C2_pathStackDiscipline :
    ∀ (stack : List String) (fname : String) (c e : Bool),
      runtimeIncludeStack stack (some fname) true true true = (true, stack) ∧
      includeSourceStack stack (some fname) true true = (true, stack) ∧
      runtimeIncludeStack stack none c e true = (false, stack) ∧
      runtimeIncludeStack stack (some fname) false c e = (false, stack ++ [fname]) ∧
      runtimeIncludeStack stack (some fname) true false e = (false, stack ++ [fname]) ∧
      runtimeIncludeStack stack (some fname) true true false = (false, stack ++ [fname]) := by
  intro stack fname c e
  refine ⟨?_, ?_, ?_, ?_, ?_, ?_⟩ <;>
    simp [runtimeIncludeStack, includeSourceStack, includeFileStack]

/-- Claim C3 (evaluation at the failing input): the test of line 580,
`/^\s*(undefined)|(null)\s*/`, parses as an alternation whose second branch
is unanchored, so the fragment `var x = null` — whose trimmed content is
neither `undefined` nor `null`, merely containing `null` as a substring —
is nevertheless rewritten to the empty-string literal; the intended
exact-match cases do fire as well. -/
theorem C3_nullSuppression :
    undefNullTest ("var x = null".toList) = true ∧
    normalizeContent ("var x = null".toList) = ['\'', '\''] ∧
    ("var x = null" ≠ "null" ∧ "var x = null" ≠ "undefined") ∧
    undefNullTest ("undefined".toList) = true ∧
    undefNullTest ("null".toList) = true ∧
    undefNullTest (" 1 + 2 ".toList) = false := by
  refine ⟨by decide, by decide, ⟨by decide, by decide⟩, by decide, by decide, by decide⟩

/-- Claim C4 (counterexample): comment tags do not leave the surrounding
literal text intact: the matcher's captured before/after runs (whitespace
and the characters `(`, `)`, `\`, `r`, `n`) are part of the match, and the
comment case (line 557-559) discards the whole match, so
`render("a <%# x %>b")` is `"ab"`, not the surrounding literal text
`"a b"`. -/
theorem C4_counterexample :
    ejsRenderS defaultCfg pureOracle "a <%# x %>b" = "ab" ∧
    ("ab" : String) ≠ "a b" := by
  constructor
  · rfl
  · decide

/-- Claim C4 (amended): a comment tag contributes nothing to the output,
but it additionally swallows the captured adjacent runs of whitespace and
of the characters `(`, `)`, `\`, `r`, `n` around it, which the other tag
kinds re-emit subject to the slurp rules: `render("a<%# x %>b") = "ab"`
for every fragment semantics, but also `render("a <%# x %>b") = "ab"` and
`render("an<%# x %>b") = "ab"`, while the same adjacent text survives a
scriptlet with a plain closer: `render("a <% x %>b") = "a b"` under the
output-free oracle, so adjacency is not treated the same way as for the
other tag kinds. -/
theorem C4_commentTags :
    (∀ o : Oracle, ejsRenderS defaultCfg o "a<%# x %>b" = "ab") ∧
    (∀ o : Oracle, ejsRenderS defaultCfg o "a <%# x %>b" = "ab") ∧
    (∀ o : Oracle, ejsRenderS defaultCfg o "an<%# x %>b" = "ab") ∧
    ejsRenderS defaultCfg pureOracle "a <% x %>b" = "a b" := by
  exact ⟨fun _ => rfl, fun _ => rfl, fun _ => rfl, rfl⟩

/-- Claim C5 (counterexample): the newline-slurp closer `-%>` does not
strip only an immediately following CRLF/LF: its rewrite
`after.replace(/(\\r)?\\n/, '')` (line 554) is unanchored within the
captured after-run, so `render("a<% x -%> \nb")` is `"a b"`: the newline
separated from the tag by a space is removed, where the claim demands it
stay (`"a \nb"`). -/
theorem C5_counterexample :
    ejsRenderS defaultCfg pureOracle "a<% x -%> \nb" = "a b" ∧
    ("a b" : String) ≠ "a \nb" := by
  constructor
  · rfl
  · decide

/-- Claim C5 (amended): a leading slurp opener `<%_` strips only the
trailing horizontal whitespace of the text immediately before the tag
(`render("  <%_ 'x' _%>  ") = ""` together with the slurp closer; a
newline before the tag survives: `render("x \n<%_ 'q' %>y") = "x \ny"`);
a trailing slurp closer `_%>` strips only the leading horizontal
whitespace and at most one leading newline of the following text
(`render("a<% x _%> b") = "ab"`, `render("a<% x _%>\nb") = "ab"`); but a
trailing newline-slurp closer `-%>` removes the first CRLF/LF found
anywhere in the captured after-run, not only an immediately following one
(`render("a<% x -%>\nb") = "ab"`, `render("a<% x -%> \nb") = "a b"`; with
no newline in the run nothing is removed: `render("a<% x -%>  b") =
"a  b"`). -/
theorem C5_slurpBehaviour :
    ejsRenderS defaultCfg pureOracle "  <%_ 'x' _%>  " = "" ∧
    ejsRenderS defaultCfg pureOracle "x \n<%_ 'q' %>y" = "x \ny" ∧
    ejsRenderS defaultCfg pureOracle "a<% x _%> b" = "ab" ∧
    ejsRenderS defaultCfg pureOracle "a<% x _%>\nb" = "ab" ∧
    ejsRenderS defaultCfg pureOracle "a<% x -%>\nb" = "ab" ∧
    ejsRenderS defaultCfg pureOracle "a<% x -%> \nb" = "a b" ∧
    ejsRenderS defaultCfg pureOracle "a<% x -%>  b" = "a  b" := by
  exact ⟨rfl, rfl, rfl, rfl, rfl, rfl, rfl⟩

/-- Claim C6: resolving an include path that does not begin with `/` when
no truthy enclosing filename is known throws the configuration error of
line 123, for every working directory and root option. -/
theorem C6_relativeIncludeNoFilename
    (cwd p : String) (filename : Option String) (root : Option String)
    (hp : startsSlash p = false)
    (hf : filename = none ∨ filename = some "") :
    getIncludePath cwd p filename root =
      Except.error "`include` use relative path requires the 'filename' option." := by
  rcases hf with hf | hf <;> simp [getIncludePath, hp, hf, strTruthy]

/-- Witness for C6 at a concrete input. -/
theorem C6_relativeIncludeNoFilename_witness :
    startsSlash "partial" = false ∧
    getIncludePath "/cwd" "partial" none none =
      Except.error "`include` use relative path requires the 'filename' option." :=
  ⟨by decide, C6_relativeIncludeNoFilename "/cwd" "partial" none none (by decide) (Or.inl rfl)⟩

/-- Claim C7: an include path beginning with `/` resolves against the
configured root (`/shared/x` with root `/r` gives `/r/shared/x.ejs`),
defaulting to the filesystem root (`/shared/x.ejs`); a relative include
resolves against the directory of the enclosing template's filename
(`partial` inside `views/a.ext` gives `views/partial` plus the default
extension, here under the root working directory); a path that already has
an extension gets nothing appended. -/
theorem C7_includeResolution :
    (∀ (cwd : String) (fn : Option String),
        getIncludePath cwd "/shared/x" fn (some "/r") = Except.ok "/r/shared/x.ejs") ∧
    (∀ (cwd : String) (fn : Option String),
        getIncludePath cwd "/shared/x" fn none = Except.ok "/shared/x.ejs") ∧
    getIncludePath "/" "partial" (some "views/a.ext") none =
      Except.ok "/views/partial.ejs" ∧
    getIncludePath "/" "partial.ejs" (some "views/a.ext") none =
      Except.ok "/views/partial.ejs" ∧
    pathExtname "partial" = "" ∧ pathExtname "partial.ejs" = ".ejs" ∧
    pathDirname "views/a.ext" = "views" := by
  exact ⟨fun _ _ => rfl, fun _ _ => rfl, rfl, rfl, rfl, rfl, rfl⟩

/-- Claim C8: with caching on, `usePages` unset and a truthy filename not
yet cached, the first compile bumps the compilation counter and stores the
compiled function under the filename; the second compile hits the cache and
returns that stored function, so only one template compilation happens
across the two calls. -/
theorem C8_cacheSingleCompile (f : String) (st : CompileState)
    (hf : f ≠ "") (hmiss : cacheGet st.cacheMap (some f) = none) :
    (ejsCompile ⟨false, true, some f⟩
        (ejsCompile ⟨false, true, some f⟩ st).2).1 =
      (ejsCompile ⟨false, true, some f⟩ st).1 ∧
    (ejsCompile ⟨false, true, some f⟩
        (ejsCompile ⟨false, true, some f⟩ st).2).2.counter = st.counter + 1 ∧
    cacheGet (ejsCompile ⟨false, true, some f⟩ st).2.cacheMap (some f) =
      some (ejsCompile ⟨false, true, some f⟩ st).1 := by
  have htr : strTruthy (some f) = true := by simp [strTruthy, hf]
  have hget : ∀ (m : List (Option String × Nat)) (k : Option String) (v : Nat),
      cacheGet (cacheSet m k v) k = some v := by
    intro m k v
    simp [cacheGet, cacheSet, List.find?]
  simp [ejsCompile, htr, hmiss, hget]

/-- Witness for C8 at a concrete input. -/
theorem C8_cacheSingleCompile_witness :
    ("a.ejs" : String) ≠ "" ∧
    cacheGet (⟨[], 0⟩ : CompileState).cacheMap (some "a.ejs") = none ∧
    ((ejsCompile ⟨false, true, some "a.ejs"⟩
        (ejsCompile ⟨false, true, some "a.ejs"⟩ ⟨[], 0⟩).2).1 =
      (ejsCompile ⟨false, true, some "a.ejs"⟩ (⟨[], 0⟩ : CompileState)).1 ∧
     (ejsCompile ⟨false, true, some "a.ejs"⟩
        (ejsCompile ⟨false, true, some "a.ejs"⟩ ⟨[], 0⟩).2).2.counter = 0 + 1 ∧
     cacheGet (ejsCompile ⟨false, true, some "a.ejs"⟩ (⟨[], 0⟩ : CompileState)).2.cacheMap
        (some "a.ejs") =
      some (ejsCompile ⟨false, true, some "a.ejs"⟩ (⟨[], 0⟩ : CompileState)).1) :=
  ⟨by decide, by decide, C8_cacheSingleCompile "a.ejs" ⟨[], 0⟩ (by decide) (by decide)⟩

/-- Pointwise behaviour of the `cpOptsInData` fold over an arbitrary name
list: a name in the list with a defined data field gets the data value,
anything else keeps the accumulator's value. -/
theorem cpFold_apply {α : Type} (data : String → Option α) :
    ∀ (l : List String) (acc : String → Option α) (p : String),
      (l.foldl
        (fun acc q =>
          match data q with
          | some v => fun r => if r = q then some v else acc r
          | none => acc)
        acc) p =
      if p ∈ l ∧ (data p).isSome then data p else acc p := by
  intro l
  induction l with
  | nil => intro acc p; simp
  | cons q l ih =>
    intro acc p
    rw [List.foldl_cons, ih]
    by_cases hpq : p = q
    · subst hpq
      rcases hq : data p with _ | v
      · simp [hq]
      · simp [hq]
    · rcases hq : data q with _ | v
      · simp [hq, List.mem_cons, hpq]
      · simp [hq, List.mem_cons, hpq]

/-- Claim C10: with exactly two arguments, every data field named in
`_OPTS` that is defined is copied into the (fresh, empty) compile options,
fields outside `_OPTS` are not, and with an options argument supplied
(three arguments) the data contributes nothing: the options object is
passed through unchanged. -/
theorem C10_renderOptionCopying :
    (∀ (α : Type) (data : String → Option α) (p : String),
        renderOptsOf 2 (some data) none p =
          if p ∈ OPTS ∧ (data p).isSome then data p else none) ∧
    (∀ (α : Type) (data opts : String → Option α),
        renderOptsOf 3 (some data) (some opts) = opts) := by
  constructor
  · intro α data p
    show cpOptsInData data (fun _ => none) p = _
    exact cpFold_apply data OPTS (fun _ => none) p
  · intro α data opts
    rfl

/-- Tail peeling for `hasLtPct`. -/
theorem hasLtPct_tail {c : Char} {rest : List Char}
    (h : hasLtPct (c :: rest) = false) : hasLtPct rest = false := by
  cases hx : hasLtPct rest
  · rfl
  · rw [hasLtPct, hx, Bool.or_true] at h
    exact absurd h (by decide)

/-- Tail peeling for `hasPPG`. -/
theorem hasPPG_tail {c : Char} {rest : List Char}
    (h : hasPPG (c :: rest) = false) : hasPPG rest = false := by
  cases hx : hasPPG rest
  · rfl
  · rw [hasPPG, hx, Bool.or_true] at h
    exact absurd h (by decide)

/-- An escaping pass whose trigger characters are not `%` preserves the
head-is-`%` predicate. -/
theorem headIsPct_escPass (cond : Char → Bool) (f : Char → Char)
    (hc : ∀ c, cond c = true → (c == '%') = false) :
    ∀ cs, headIsPct (escPass cond f cs) = headIsPct cs := by
  intro cs
  cases cs with
  | nil => rfl
  | cons c rest =>
    by_cases h : cond c = true
    · simp [escPass, h, headIsPct, hc c h]
    · simp [escPass, h, headIsPct]

/-- An escaping pass whose trigger characters are not `>` preserves the
head-is-`>` predicate. -/
theorem headIsGt_escPass (cond : Char → Bool) (f : Char → Char)
    (hc : ∀ c, cond c = true → (c == '>') = false) :
    ∀ cs, headIsGt (escPass cond f cs) = headIsGt cs := by
  intro cs
  cases cs with
  | nil => rfl
  | cons c rest =>
    by_cases h : cond c = true
    · simp [escPass, h, headIsGt, hc c h]
    · simp [escPass, h, headIsGt]

/-- An escaping pass whose trigger characters are neither `%` nor `>`
preserves the head-is-`%>` predicate. -/
theorem headIsPctGt_escPass (cond : Char → Bool) (f : Char → Char)
    (hpct : ∀ c, cond c = true → (c == '%') = false)
    (hgt : ∀ c, cond c = true → (c == '>') = false) :
    ∀ cs, headIsPctGt (escPass cond f cs) = headIsPctGt cs := by
  intro cs
  cases cs with
  | nil => rfl
  | cons c rest =>
    by_cases h : cond c = true
    · simp [escPass, h, headIsPctGt, hpct c h]
    · simp [escPass, h, headIsPctGt, headIsGt_escPass cond f hgt rest]

/-- An escaping pass that never triggers on `<` or `%` and never inserts
`<` preserves absence of the `<%` pair: inserted backslashes cannot start
it and the inserted second characters cannot either. -/
theorem hasLtPct_escPass (cond : Char → Bool) (f : Char → Char)
    (hpct : ∀ c, cond c = true → (c == '%') = false)
    (hlt : ∀ c, cond c = true → (c == '<') = false)
    (hflt : ∀ c, cond c = true → (f c == '<') = false) :
    ∀ cs, hasLtPct (escPass cond f cs) = hasLtPct cs := by
  intro cs
  induction cs with
  | nil => rfl
  | cons c rest ih =>
    by_cases h : cond c = true
    · simp [escPass, h, hasLtPct, headIsPct, hflt c h, hlt c h, ih]
    · simp [escPass, h, hasLtPct, headIsPct_escPass cond f hpct rest, ih]

/-- An escaping pass that never triggers on `%` or `>` and never inserts
`%` preserves absence of the `%%>` triple. -/
theorem hasPPG_escPass (cond : Char → Bool) (f : Char → Char)
    (hpct : ∀ c, cond c = true → (c == '%') = false)
    (hgt : ∀ c, cond c = true → (c == '>') = false)
    (hfpct : ∀ c, cond c = true → (f c == '%') = false) :
    ∀ cs, hasPPG (escPass cond f cs) = hasPPG cs := by
  intro cs
  induction cs with
  | nil => rfl
  | cons c rest ih =>
    by_cases h : cond c = true
    · simp [escPass, h, hasPPG, headIsPctGt, headIsGt, hfpct c h, hpct c h, ih]
    · simp [escPass, h, hasPPG, headIsPctGt_escPass cond f hpct hgt rest, ih]

/-- The quote/backslash trigger characters in Prop form. -/
theorem escQB_trigger {c : Char} (hc : (c == '\'' || c == '\\') = true) :
    c = '\'' ∨ c = '\\' := by
  simpa using hc

/-- The full escaping chain of `jsEscape false` preserves absence of the
tag-opening pair `<%`. -/
theorem hasLtPct_jsEscape (t : List Char) :
    hasLtPct (jsEscape false t) = hasLtPct t := by
  have hq : ∀ c : Char, (c == '\'' || c == '\\') = true → (c == '%') = false := by
    intro c hc
    rcases escQB_trigger hc with h | h <;> subst h <;> decide
  have hq2 : ∀ c : Char, (c == '\'' || c == '\\') = true → (c == '<') = false := by
    intro c hc
    rcases escQB_trigger hc with h | h <;> subst h <;> decide
  have hq3 : ∀ c : Char, (c == '\'' || c == '\\') = true →
      ((fun c => c) c == '<') = false := by
    intro c hc
    rcases escQB_trigger hc with h | h <;> subst h <;> decide
  have hn : ∀ c : Char, (c == '\n') = true → (c == '%') = false := by
    intro c hc; rw [eq_of_beq hc]; decide
  have hn2 : ∀ c : Char, (c == '\n') = true → (c == '<') = false := by
    intro c hc; rw [eq_of_beq hc]; decide
  have hn3 : ∀ c : Char, (c == '\n') = true → ((fun _ => 'n') c == '<') = false := by
    intro c _
    show ('n' == '<') = false
    decide
  have hr : ∀ c : Char, (c == '\r') = true → (c == '%') = false := by
    intro c hc; rw [eq_of_beq hc]; decide
  have hr2 : ∀ c : Char, (c == '\r') = true → (c == '<') = false := by
    intro c hc; rw [eq_of_beq hc]; decide
  have hr3 : ∀ c : Char, (c == '\r') = true → ((fun _ => 'r') c == '<') = false := by
    intro c _
    show ('r' == '<') = false
    decide
  show hasLtPct (escCR (escNL (escQB t))) = hasLtPct t
  rw [escCR, escNL, escQB,
      hasLtPct_escPass _ _ hr hr2 hr3,
      hasLtPct_escPass _ _ hn hn2 hn3,
      hasLtPct_escPass _ _ hq hq2 hq3]

/-- The full escaping chain of `jsEscape false` preserves absence of the
literal-delimiter triple `%%>`. -/
theorem hasPPG_jsEscape (t : List Char) :
    hasPPG (jsEscape false t) = hasPPG t := by
  have hq : ∀ c : Char, (c == '\'' || c == '\\') = true → (c == '%') = false := by
    intro c hc
    rcases escQB_trigger hc with h | h <;> subst h <;> decide
  have hq2 : ∀ c : Char, (c == '\'' || c == '\\') = true → (c == '>') = false := by
    intro c hc
    rcases escQB_trigger hc with h | h <;> subst h <;> decide
  have hq3 : ∀ c : Char, (c == '\'' || c == '\\') = true →
      ((fun c => c) c == '%') = false := by
    intro c hc
    rcases escQB_trigger hc with h | h <;> subst h <;> decide
  have hn : ∀ c : Char, (c == '\n') = true → (c == '%') = false := by
    intro c hc; rw [eq_of_beq hc]; decide
  have hn2 : ∀ c : Char, (c == '\n') = true → (c == '>') = false := by
    intro c hc; rw [eq_of_beq hc]; decide
  have hn3 : ∀ c : Char, (c == '\n') = true → ((fun _ => 'n') c == '%') = false := by
    intro c _
    show ('n' == '%') = false
    decide
  have hr : ∀ c : Char, (c == '\r') = true → (c == '%') = false := by
    intro c hc; rw [eq_of_beq hc]; decide
  have hr2 : ∀ c : Char, (c == '\r') = true → (c == '>') = false := by
    intro c hc; rw [eq_of_beq hc]; decide
  have hr3 : ∀ c : Char, (c == '\r') = true → ((fun _ => 'r') c == '%') = false := by
    intro c _
    show ('r' == '%') = false
    decide
  show hasPPG (escCR (escNL (escQB t))) = hasPPG t
  rw [escCR, escNL, escQB,
      hasPPG_escPass _ _ hr hr2 hr3,
      hasPPG_escPass _ _ hn hn2 hn3,
      hasPPG_escPass _ _ hq hq2 hq3]

/-- Dropping a prefix preserves absence of the `<%` pair. -/
theorem hasLtPct_dropWhile (p : Char → Bool) :
    ∀ cs : List Char, hasLtPct cs = false → hasLtPct (cs.dropWhile p) = false := by
  intro cs
  induction cs with
  | nil => intro h; exact h
  | cons c rest ih =>
    intro h
    cases hp : p c
    · simp only [List.dropWhile, hp]
      exact h
    · simp only [List.dropWhile, hp]
      exact ih (hasLtPct_tail h)

/-- Without the `<%` pair at its head region, the opener cannot match. -/
theorem matchOpen_none : ∀ l : List Char, hasLtPct l = false → matchOpen l = none := by
  intro l h
  match l with
  | [] => rfl
  | [c] => rfl
  | c1 :: c2 :: rest =>
    have hx : (c1 == '<' && c2 == '%') = false := by
      cases hy : (c1 == '<' && c2 == '%')
      · rfl
      · exfalso
        rw [hasLtPct] at h
        have : (c1 == '<' && headIsPct (c2 :: rest)) = true := by
          simpa [headIsPct] using hy
        rw [this, Bool.true_or] at h
        exact absurd h (by decide)
    simp [matchOpen, hx]

/-- A text without the `<%` pair admits no tag match. -/
theorem matchTagFrom_none (cs : List Char) (h : hasLtPct cs = false) :
    matchTagFrom cs = none := by
  have hop : matchOpen (cs.dropWhile isCLS) = none :=
    matchOpen_none _ (hasLtPct_dropWhile isCLS cs h)
  simp [matchTagFrom, hop]

/-- Inversion of the `\\n` alternative. -/
theorem matchEscNl_eq_some {cs r : List Char} (h : matchEscNl cs = some r) :
    cs = '\\' :: 'n' :: r := by
  match cs with
  | [] => simp [matchEscNl] at h
  | [c] => simp [matchEscNl] at h
  | c1 :: c2 :: rest =>
    rw [matchEscNl] at h
    by_cases hnl : (c1 == '\\' && c2 == 'n') = true
    · rw [if_pos hnl] at h
      obtain ⟨ha, hb⟩ : c1 = '\\' ∧ c2 = 'n' := by simpa using hnl
      injection h with h
      subst ha; subst hb; subst h
      rfl
    · rw [if_neg hnl] at h
      cases h

/-- On tagless text the global replace walk leaves every character as
literal text (escaped newlines included, since the `compileDebug`
alternative returns its match unchanged): the render is the `litOut` of the
accumulated literal text followed by the rest. -/
theorem renderGo_scanF_noTag (cfg : Cfg) (o : Oracle) (dbg : Bool) :
    ∀ (fuel : Nat) (cs acc : List Char), cs.length ≤ fuel → hasLtPct cs = false →
      renderGo cfg o acc (scanF dbg fuel cs) = litOut (acc ++ cs) := by
  intro fuel
  induction fuel with
  | zero =>
    intro cs acc hl _
    have hnil : cs = [] := List.length_eq_zero.mp (Nat.le_zero.mp hl)
    subst hnil
    simp [scanF, renderGo]
  | succ fuel ih =>
    intro cs acc hl h1
    simp only [scanF, matchTagFrom_none cs h1]
    cases dbg
    · rcases cs with _ | ⟨c, rest⟩
      · simp [renderGo]
      · show renderGo cfg o acc (Piece.lit c :: scanF false fuel rest) =
          litOut (acc ++ (c :: rest))
        rw [renderGo, ih rest (acc ++ [c]) (by simp at hl; omega) (hasLtPct_tail h1)]
        simp
    · rcases hm : matchEscNl cs with _ | r
      · rcases cs with _ | ⟨c, rest⟩
        · simp [renderGo]
        · show renderGo cfg o acc (Piece.lit c :: scanF true fuel rest) =
            litOut (acc ++ (c :: rest))
          rw [renderGo, ih rest (acc ++ [c]) (by simp at hl; omega) (hasLtPct_tail h1)]
          simp
      · have hcs := matchEscNl_eq_some hm
        subst hcs
        show renderGo cfg o acc (Piece.escNl :: scanF true fuel r) =
          litOut (acc ++ ('\\' :: 'n' :: r))
        rw [renderGo, ih r (acc ++ ['\\', 'n']) (by simp at hl; omega)
          (hasLtPct_tail (hasLtPct_tail h1))]
        simp

/-- Unfolding `jsUnesc` on an escape pair. -/
theorem jsUnesc_cons_bs (d : Char) (X : List Char) :
    jsUnesc ('\\' :: d :: X) = unescChar d :: jsUnesc X := by
  rw [jsUnesc.eq_def]
  simp

/-- Unfolding `jsUnesc` on a non-backslash head. -/
theorem jsUnesc_cons_ne {c : Char} (X : List Char) (h : ¬ c = '\\') :
    jsUnesc (c :: X) = c :: jsUnesc X := by
  rw [jsUnesc.eq_def]
  simp [h]

/-- Without a `<%` pair there is no `<%%`, and without a `%%>` triple the
literal-delimiter pass is the identity. -/
theorem litRepl_id : ∀ (n : Nat) (cs : List Char), cs.length ≤ n →
    hasLtPct cs = false → hasPPG cs = false → litRepl cs = cs := by
  intro n
  induction n with
  | zero =>
    intro cs hl _ _
    have hnil : cs = [] := List.length_eq_zero.mp (Nat.le_zero.mp hl)
    subst hnil
    rfl
  | succ n ih =>
    intro cs hl h1 h2
    rcases cs with _ | ⟨c1, _ | ⟨c2, _ | ⟨c3, rest⟩⟩⟩
    · rfl
    · rfl
    · rfl
    · rw [litRepl]
      have e1 : ¬ ((c1 == '<' && c2 == '%' && c3 == '%') = true) := by
        intro he
        obtain ⟨⟨ha, hb⟩, _⟩ : (c1 = '<' ∧ c2 = '%') ∧ c3 = '%' := by simpa using he
        have hgot : hasLtPct (c1 :: c2 :: c3 :: rest) = true := by
          subst ha; subst hb
          simp [hasLtPct, headIsPct]
        rw [h1] at hgot
        exact absurd hgot (by decide)
      have e2 : ¬ ((c1 == '%' && c2 == '%' && c3 == '>') = true) := by
        intro he
        obtain ⟨⟨ha, hb⟩, hc⟩ : (c1 = '%' ∧ c2 = '%') ∧ c3 = '>' := by simpa using he
        have hgot : hasPPG (c1 :: c2 :: c3 :: rest) = true := by
          subst ha; subst hb; subst hc
          simp [hasPPG, headIsPctGt, headIsGt]
        rw [h2] at hgot
        exact absurd hgot (by decide)
      rw [if_neg e1, if_neg e2]
      have h1' : hasLtPct (c2 :: c3 :: rest) = false := hasLtPct_tail h1
      have h2' : hasPPG (c2 :: c3 :: rest) = false := hasPPG_tail h2
      rw [ih (c2 :: c3 :: rest) (by simp at hl ⊢; omega) h1' h2']

/-- Executing the string literal undoes the escaping chain of
generateSource lines 516-522: quote/backslash escaping, then newline and
carriage-return conversion. -/
theorem jsUnesc_jsEscape : ∀ t : List Char, jsUnesc (escCR (escNL (escQB t))) = t := by
  intro t
  induction t with
  | nil => rfl
  | cons c rest ih =>
    simp only [escQB, escNL, escCR] at ih ⊢
    by_cases h1 : c = '\''
    · subst h1
      simp [escPass, jsUnesc_cons_bs, unescChar, ih]
    · by_cases h2 : c = '\\'
      · subst h2
        simp [escPass, jsUnesc_cons_bs, unescChar, ih]
      · by_cases h3 : c = '\n'
        · subst h3
          simp [escPass, jsUnesc_cons_bs, unescChar, ih]
        · by_cases h4 : c = '\r'
          · subst h4
            simp [escPass, jsUnesc_cons_bs, unescChar, ih]
          · simp [escPass, h1, h2, h3, h4, jsUnesc_cons_ne, ih]

/-- List-level literal identity: on a template without the tag-opening
pair `<%` and without the literal-delimiter triple `%%>`, the whole render
pipeline is the identity, for either `compileDebug` setting, `rmWhitespace`
off, and every fragment semantics. -/
theorem ejsRender_literal (t : List Char)
    (h1 : hasLtPct t = false) (h2 : hasPPG t = false)
    (dbg : Bool) (o : Oracle) :
    ejsRender (Cfg.mk dbg false) o t = t := by
  have hE1 : hasLtPct (jsEscape false t) = false := by
    rw [hasLtPct_jsEscape]; exact h1
  have hE2 : hasPPG (jsEscape false t) = false := by
    rw [hasPPG_jsEscape]; exact h2
  show renderGo (Cfg.mk dbg false) o []
    (scanF dbg (jsEscape false t).length (jsEscape false t)) = t
  rw [renderGo_scanF_noTag (Cfg.mk dbg false) o dbg (jsEscape false t).length
    (jsEscape false t) [] (le_refl _) hE1]
  rw [List.nil_append, litOut,
      litRepl_id (jsEscape false t).length (jsEscape false t) (le_refl _) hE1 hE2]
  show jsUnesc (escCR (escNL (escQB t))) = t
  exact jsUnesc_jsEscape t

/-- Claim C9: a template text containing no tag-opening sequence `<%` and
no literal-delimiter escape (`<%%`/`%%>`; absence of `<%` and of `%%>`
covers both), compiled with default options (`rmWhitespace` off, either
`compileDebug` setting) and rendered with any data (any fragment
semantics), renders to exactly the input text — quotes, backslashes and
newlines included. -/
theorem C9_literalOnlyIdentity (s : String)
    (h1 : hasLtPct s.toList = false) (h2 : hasPPG s.toList = false)
    (dbg : Bool) (o : Oracle) :
    ejsRenderS (Cfg.mk dbg false) o s = s := by
  show String.mk (ejsRender (Cfg.mk dbg false) o s.toList) = s
  rw [ejsRender_literal s.toList h1 h2 dbg o]
  rfl

/-- Witness for C9 at a concrete input containing quotes, a backslash and
a newline. -/
theorem C9_literalOnlyIdentity_witness :
    hasLtPct ("he'l\\lo\nw<r %>".toList) = false ∧
    hasPPG ("he'l\\lo\nw<r %>".toList) = false ∧
    ejsRenderS (Cfg.mk true false) pureOracle "he'l\\lo\nw<r %>" = "he'l\\lo\nw<r %>" :=
  ⟨by decide, by decide,
   C9_literalOnlyIdentity "he'l\\lo\nw<r %>" (by decide) (by decide) true pureOracle⟩
